import Mathlib

/-!
Verification development for the grid-and-particle fluid simulation kernel
(volumetric particle emission, forward-Euler grid diffusion, pressure-solver
contract).  The repository provides the class declarations
(`volume_particle_emitter2.h`, `grid_forward_euler_diffusion_solver2.h`,
`grid_pressure_solver2.h`) and a unit test; the member-function bodies are
modelled here from the specification, with real numbers embedded as `ℚ`.
-/

namespace FluidEngine

/-- A 2-D point, embedded with rational coordinates. -/
abbrev Point := ℚ × ℚ

/-- A 3-D point, embedded with rational coordinates. -/
abbrev Point3 := ℚ × ℚ × ℚ

/-- Models the `kMaxD` sentinel (`std::numeric_limits<double>::max()`):
a positive, very large scalar.  Only its sign matters to the marker logic. -/
def kMaxD : ℚ := 2 ^ 1024

/-- Boundary marker of one grid sample point: fluid, solid or air. -/
inductive Marker where
  | fluid : Marker
  | solid : Marker
  | air : Marker
deriving DecidableEq, Repr

/-- Modelled from the spec: classification of one sample from the sampled
values of `boundarySdf` and `fluidSdf` (missing body of
`GridForwardEulerDiffusionSolver2::buildMarkers`).  Solid where the boundary
SDF is negative; otherwise fluid where the fluid SDF is negative (inside the
fluid, consistently with the documented default `-kMaxD` = "fully occupied
with fluid"); otherwise air. -/
def classify (b f : ℚ) : Marker :=
  if b < 0 then Marker.solid
  else if f < 0 then Marker.fluid
  else Marker.air

/-- The classification rule exactly as the spec's words state it
("marker = solid if boundarySdf < 0; else fluid if fluidSdf > 0; else air"),
kept separate so that it can be compared with `classify`. -/
def classifySpecWords (b f : ℚ) : Marker :=
  if b < 0 then Marker.solid
  else if 0 < f then Marker.fluid
  else Marker.air

/-- A 2-D scalar grid: a size, a grid spacing, a sample-position map
(covering cell-centered and face-centered layouts alike) and the sampled
data.  Accesses outside `sizeX × sizeY` are never used by the solver. -/
structure ScalarGrid2 where
  sizeX : ℕ
  sizeY : ℕ
  gridSpacing : ℚ
  pos : ℕ → ℕ → Point
  data : ℕ → ℕ → ℚ

/-- The default boundary SDF argument: constant `kMaxD` (no solid). -/
def defaultBoundarySdf : Point → ℚ := fun _ => kMaxD

/-- The default fluid SDF argument: constant `-kMaxD` (fully fluid). -/
def defaultFluidSdf : Point → ℚ := fun _ => -kMaxD

/-- Modelled from the spec: the marker the solver assigns to sample `(i, j)`
of a layout whose sample positions are given by `pos`. -/
def markerAt (b f : Point → ℚ) (pos : ℕ → ℕ → Point) (i j : ℕ) : Marker :=
  classify (b (pos i j)) (f (pos i j))

/-- Modelled from the spec: the discrete Laplacian used by the missing body
of `GridForwardEulerDiffusionSolver2::solve` — second-order central
differencing over the 4-neighborhood, where a neighbor that is out of range
or marked solid contributes the center value (zero one-sided difference),
and an air neighbor contributes its own sampled value. -/
def laplacian (g : ScalarGrid2) (b f : Point → ℚ) (i j : ℕ) : ℚ :=
  ((if 0 < i ∧ markerAt b f g.pos (i - 1) j ≠ Marker.solid
      then g.data (i - 1) j else g.data i j)
    + (if i + 1 < g.sizeX ∧ markerAt b f g.pos (i + 1) j ≠ Marker.solid
        then g.data (i + 1) j else g.data i j)
    - 2 * g.data i j) / g.gridSpacing ^ 2
  + ((if 0 < j ∧ markerAt b f g.pos i (j - 1) ≠ Marker.solid
        then g.data i (j - 1) else g.data i j)
    + (if j + 1 < g.sizeY ∧ markerAt b f g.pos i (j + 1) ≠ Marker.solid
        then g.data i (j + 1) else g.data i j)
    - 2 * g.data i j) / g.gridSpacing ^ 2

/-- Modelled from the spec: the missing body of
`GridForwardEulerDiffusionSolver2::solve` for a scalar grid.  It rebuilds
the markers from the two SDFs, applies the forward-Euler update at fluid
samples and copies the source elsewhere.  No stability check is performed. -/
def solve (g : ScalarGrid2) (mu dt : ℚ) (b f : Point → ℚ) : ScalarGrid2 :=
  { g with data := fun i j =>
      if markerAt b f g.pos i j = Marker.fluid then
        g.data i j + mu * dt * laplacian g b f i j
      else
        g.data i j }

/-- A concrete 1×1 grid used to witness the diffusion theorems. -/
def testGrid : ScalarGrid2 :=
  ⟨1, 1, 1, fun i j => ((i : ℚ), (j : ℚ)), fun _ _ => 0⟩

/-! ### Volume particle emitter (2-D) -/

/-- Modelled from the spec: one step of the deterministic seeded
pseudo-random generator (`std::mt19937` in the declaration), embedded as a
linear congruential generator on 32-bit state. -/
def lcg (s : ℕ) : ℕ := (1664525 * s + 1013904223) % 2 ^ 32

/-- Modelled from the spec: the scalar in `[0, 1)` drawn from generator
state `s` (the `random()` member of the emitter declaration). -/
def randFrac (s : ℕ) : ℚ := ((s % 2 ^ 32 : ℕ) : ℚ) / 2 ^ 32

/-- Configuration of `VolumeParticleEmitter2`, per its declaration:
spacing, initial velocity, particle cap, jitter, one-shot and overlapping
flags, and the point generator (modelled as the candidate list it produces
over the emitter's bounding box at a given spacing). -/
structure EmitterConfig where
  spacing : ℚ
  initialVel : Point
  maxNumberOfParticles : ℕ
  jitter : ℚ
  isOneShot : Bool
  allowOverlapping : Bool
  pointsGen : ℚ → List Point

/-- Mutable emission state of a volume emitter: the generator state and the
emitted-particle counter (`_numberOfEmittedParticles`). -/
structure EmitterState where
  rngState : ℕ
  numberOfEmittedParticles : ℕ
deriving DecidableEq, Repr

/-- The external particle system buffers: append-only position and velocity
arrays. -/
structure ParticleSystemData2 where
  positions : List Point
  velocities : List Point
deriving DecidableEq, Repr

/-- Modelled from the spec: jitter perturbation of a candidate point — when
`jitter > 0`, offset each axis by `jitter * spacing` times a centered draw
from the seeded generator; otherwise leave the point and the generator
untouched.  Returns the (possibly) perturbed point and the new state. -/
def jitterPoint (cfg : EmitterConfig) (s : ℕ) (p : Point) : Point × ℕ :=
  if 0 < cfg.jitter then
    ((p.1 + cfg.jitter * cfg.spacing * (randFrac s - 1 / 2),
      p.2 + cfg.jitter * cfg.spacing * (randFrac (lcg s) - 1 / 2)),
     lcg (lcg s))
  else
    (p, s)

/-- Squared euclidean distance of two 2-D points. -/
def dist2 (p q : Point) : ℚ := (p.1 - q.1) ^ 2 + (p.2 - q.2) ^ 2

/-- Accumulator of one `emit` call: generator state, emitted counter and the
positions accepted so far within this call. -/
structure EmitAcc where
  rng : ℕ
  count : ℕ
  newPositions : List Point

/-- Modelled from the spec: processing of one candidate point inside the
missing body of `VolumeParticleEmitter2::emit` — reject when the implicit
surface's signed distance at the candidate is ≥ 0; otherwise jitter it;
reject when overlapping is disallowed and some existing particle (old, or
accepted earlier in this call) lies within `spacing`; reject when the
particle cap is reached; otherwise accept it. -/
def stepCandidate (cfg : EmitterConfig) (sdf : Point → ℚ)
    (oldPositions : List Point) (acc : EmitAcc) (p : Point) : EmitAcc :=
  if 0 ≤ sdf p then acc
  else if cfg.allowOverlapping = false ∧
      ∃ r ∈ oldPositions ++ acc.newPositions,
        dist2 r (jitterPoint cfg acc.rng p).1 < cfg.spacing ^ 2 then
    ⟨(jitterPoint cfg acc.rng p).2, acc.count, acc.newPositions⟩
  else if acc.count < cfg.maxNumberOfParticles then
    ⟨(jitterPoint cfg acc.rng p).2, acc.count + 1,
      acc.newPositions ++ [(jitterPoint cfg acc.rng p).1]⟩
  else
    ⟨(jitterPoint cfg acc.rng p).2, acc.count, acc.newPositions⟩

/-- The accumulator of one `emit` call after all candidates of the point
generator have been processed. -/
def emitAccOf (cfg : EmitterConfig) (sdf : Point → ℚ) (st : EmitterState)
    (ps : ParticleSystemData2) : EmitAcc :=
  (cfg.pointsGen cfg.spacing).foldl (stepCandidate cfg sdf ps.positions)
    ⟨st.rngState, st.numberOfEmittedParticles, []⟩

/-- Modelled from the spec: the missing body of
`VolumeParticleEmitter2::emit`.  A one-shot emitter that has already emitted
returns without effect; otherwise every candidate of the point generator is
processed in order and the accepted positions are appended to the particle
system together with the constant initial velocity, updating the counter. -/
def emit (cfg : EmitterConfig) (sdf : Point → ℚ) (st : EmitterState)
    (ps : ParticleSystemData2) : EmitterState × ParticleSystemData2 :=
  if cfg.isOneShot = true ∧ 0 < st.numberOfEmittedParticles then (st, ps)
  else
    (⟨(emitAccOf cfg sdf st ps).rng, (emitAccOf cfg sdf st ps).count⟩,
     ⟨ps.positions ++ (emitAccOf cfg sdf st ps).newPositions,
      ps.velocities ++ (emitAccOf cfg sdf st ps).newPositions.map
        (fun _ => cfg.initialVel)⟩)

/-- One `emit` call viewed as a transformer of the (emitter state, particle
system) pair, for reasoning about call sequences. -/
def emitCall (cfg : EmitterConfig) (sdf : Point → ℚ) :
    EmitterState × ParticleSystemData2 → EmitterState × ParticleSystemData2 :=
  fun x => emit cfg sdf x.1 x.2

/-- Emitter state right after construction with a given seed: the counter
`_numberOfEmittedParticles` is initialized to 0 (per the declaration's
default member initializer). -/
def initState (seed : ℕ) : EmitterState := ⟨seed, 0⟩

/-- The full `VolumeParticleEmitter2` object: configuration plus mutable
emission state. -/
structure VolumeParticleEmitter2 where
  config : EmitterConfig
  state : EmitterState

/-- Modelled from the spec: the constructor — stores the configuration,
seeds the generator and zeroes the emitted counter. -/
def mkVolumeParticleEmitter2 (cfg : EmitterConfig) (seed : ℕ) :
    VolumeParticleEmitter2 :=
  ⟨cfg, initState seed⟩

/-- `setSpacing`: stores the new spacing, nothing else. -/
def setSpacing (e : VolumeParticleEmitter2) (v : ℚ) : VolumeParticleEmitter2 :=
  ⟨{ e.config with spacing := v }, e.state⟩

/-- `setJitter`: stores the new jitter amount, nothing else. -/
def setJitter (e : VolumeParticleEmitter2) (v : ℚ) : VolumeParticleEmitter2 :=
  ⟨{ e.config with jitter := v }, e.state⟩

/-- `setIsOneShot`: stores the new one-shot flag, nothing else. -/
def setIsOneShot (e : VolumeParticleEmitter2) (v : Bool) : VolumeParticleEmitter2 :=
  ⟨{ e.config with isOneShot := v }, e.state⟩

/-- `setAllowOverlapping`: stores the new overlapping flag, nothing else. -/
def setAllowOverlapping (e : VolumeParticleEmitter2) (v : Bool) :
    VolumeParticleEmitter2 :=
  ⟨{ e.config with allowOverlapping := v }, e.state⟩

/-- `setMaxNumberOfParticles`: stores the new cap, nothing else. -/
def setMaxNumberOfParticles (e : VolumeParticleEmitter2) (v : ℕ) :
    VolumeParticleEmitter2 :=
  ⟨{ e.config with maxNumberOfParticles := v }, e.state⟩

/-- `setInitialVelocity`: stores the new initial velocity, nothing else. -/
def setInitialVelocity (e : VolumeParticleEmitter2) (v : Point) :
    VolumeParticleEmitter2 :=
  ⟨{ e.config with initialVel := v }, e.state⟩

/-- `setPointGenerator`: stores the new point generator, nothing else. -/
def setPointGenerator (e : VolumeParticleEmitter2) (gen : ℚ → List Point) :
    VolumeParticleEmitter2 :=
  ⟨{ e.config with pointsGen := gen }, e.state⟩

/-- Pairwise separation of a particle buffer: every pair of distinct
particles is at squared distance at least `s2`. -/
def Separated (s2 : ℚ) (l : List Point) : Prop :=
  l.Pairwise (fun p q => s2 ≤ dist2 p q)

/-! ### Volume particle emitter (3-D) -/

/-- Configuration of `VolumeParticleEmitter3`, mirroring the 2-D one per its
declaration. -/
structure EmitterConfig3 where
  spacing : ℚ
  initialVel : Point3
  maxNumberOfParticles : ℕ
  jitter : ℚ
  isOneShot : Bool
  allowOverlapping : Bool
  pointsGen : ℚ → List Point3

/-- The external 3-D particle system buffers. -/
structure ParticleSystemData3 where
  positions : List Point3
  velocities : List Point3

/-- Squared euclidean distance of two 3-D points. -/
def dist2three (p q : Point3) : ℚ :=
  (p.1 - q.1) ^ 2 + (p.2.1 - q.2.1) ^ 2 + (p.2.2 - q.2.2) ^ 2

/-- Modelled from the spec: 3-D jitter perturbation, one centered draw per
axis. -/
def jitterPoint3 (cfg : EmitterConfig3) (s : ℕ) (p : Point3) : Point3 × ℕ :=
  if 0 < cfg.jitter then
    ((p.1 + cfg.jitter * cfg.spacing * (randFrac s - 1 / 2),
      p.2.1 + cfg.jitter * cfg.spacing * (randFrac (lcg s) - 1 / 2),
      p.2.2 + cfg.jitter * cfg.spacing * (randFrac (lcg (lcg s)) - 1 / 2)),
     lcg (lcg (lcg s)))
  else
    (p, s)

/-- Accumulator of one 3-D `emit` call. -/
structure EmitAcc3 where
  rng : ℕ
  count : ℕ
  newPositions : List Point3

/-- Modelled from the spec: processing of one candidate point inside the
missing body of `VolumeParticleEmitter3::emit`, mirroring the 2-D rules. -/
def stepCandidate3 (cfg : EmitterConfig3) (sdf : Point3 → ℚ)
    (oldPositions : List Point3) (acc : EmitAcc3) (p : Point3) : EmitAcc3 :=
  if 0 ≤ sdf p then acc
  else if cfg.allowOverlapping = false ∧
      ∃ r ∈ oldPositions ++ acc.newPositions,
        dist2three r (jitterPoint3 cfg acc.rng p).1 < cfg.spacing ^ 2 then
    ⟨(jitterPoint3 cfg acc.rng p).2, acc.count, acc.newPositions⟩
  else if acc.count < cfg.maxNumberOfParticles then
    ⟨(jitterPoint3 cfg acc.rng p).2, acc.count + 1,
      acc.newPositions ++ [(jitterPoint3 cfg acc.rng p).1]⟩
  else
    ⟨(jitterPoint3 cfg acc.rng p).2, acc.count, acc.newPositions⟩

/-- The accumulator of one 3-D `emit` call after all candidates have been
processed. -/
def emitAccOf3 (cfg : EmitterConfig3) (sdf : Point3 → ℚ) (st : EmitterState)
    (ps : ParticleSystemData3) : EmitAcc3 :=
  (cfg.pointsGen cfg.spacing).foldl (stepCandidate3 cfg sdf ps.positions)
    ⟨st.rngState, st.numberOfEmittedParticles, []⟩

/-- Modelled from the spec: the missing body of
`VolumeParticleEmitter3::emit`, mirroring the 2-D one. -/
def emit3 (cfg : EmitterConfig3) (sdf : Point3 → ℚ) (st : EmitterState)
    (ps : ParticleSystemData3) : EmitterState × ParticleSystemData3 :=
  if cfg.isOneShot = true ∧ 0 < st.numberOfEmittedParticles then (st, ps)
  else
    (⟨(emitAccOf3 cfg sdf st ps).rng, (emitAccOf3 cfg sdf st ps).count⟩,
     ⟨ps.positions ++ (emitAccOf3 cfg sdf st ps).newPositions,
      ps.velocities ++ (emitAccOf3 cfg sdf st ps).newPositions.map
        (fun _ => cfg.initialVel)⟩)

/-- The full `VolumeParticleEmitter3` object. -/
structure VolumeParticleEmitter3 where
  config : EmitterConfig3
  state : EmitterState

/-- Modelled from the spec: the 3-D constructor — stores the configuration,
seeds the generator and zeroes the emitted counter. -/
def mkVolumeParticleEmitter3 (cfg : EmitterConfig3) (seed : ℕ) :
    VolumeParticleEmitter3 :=
  ⟨cfg, initState seed⟩

/-- 3-D `setSpacing`: stores the new spacing, nothing else. -/
def setSpacing3 (e : VolumeParticleEmitter3) (v : ℚ) : VolumeParticleEmitter3 :=
  ⟨{ e.config with spacing := v }, e.state⟩

/-- 3-D `setJitter`: stores the new jitter amount, nothing else. -/
def setJitter3 (e : VolumeParticleEmitter3) (v : ℚ) : VolumeParticleEmitter3 :=
  ⟨{ e.config with jitter := v }, e.state⟩

/-- 3-D `setIsOneShot`: stores the new one-shot flag, nothing else. -/
def setIsOneShot3 (e : VolumeParticleEmitter3) (v : Bool) : VolumeParticleEmitter3 :=
  ⟨{ e.config with isOneShot := v }, e.state⟩

/-- 3-D `setAllowOverlapping`: stores the new overlapping flag, nothing else. -/
def setAllowOverlapping3 (e : VolumeParticleEmitter3) (v : Bool) :
    VolumeParticleEmitter3 :=
  ⟨{ e.config with allowOverlapping := v }, e.state⟩

/-- 3-D `setMaxNumberOfParticles`: stores the new cap, nothing else. -/
def setMaxNumberOfParticles3 (e : VolumeParticleEmitter3) (v : ℕ) :
    VolumeParticleEmitter3 :=
  ⟨{ e.config with maxNumberOfParticles := v }, e.state⟩

/-- 3-D `setInitialVelocity`: stores the new initial velocity, nothing else. -/
def setInitialVelocity3 (e : VolumeParticleEmitter3) (v : Point3) :
    VolumeParticleEmitter3 :=
  ⟨{ e.config with initialVel := v }, e.state⟩

/-- 3-D `setPointGenerator`: stores the new point generator, nothing else. -/
def setPointGenerator3 (e : VolumeParticleEmitter3) (gen : ℚ → List Point3) :
    VolumeParticleEmitter3 :=
  ⟨{ e.config with pointsGen := gen }, e.state⟩

/-! ### Point particle emitter (2-D) -/

/-- Dot product of two 2-D vectors. -/
def dot (p q : Point) : ℚ := p.1 * q.1 + p.2 * q.2

/-- Configuration of `PointParticleEmitter2`: emission origin, axis
direction, speed, the cosine of the spread angle, emission rate per second
and the particle cap. -/
structure PointEmitterConfig where
  origin : Point
  axis : Point
  speed : ℚ
  cosSpread : ℚ
  rate : ℕ
  cap : ℕ

/-- Modelled from the spec: one `emit` call of the missing
`PointParticleEmitter2` body at unit-length frame number `k`.  The random
direction sampling within the spread cone (a rotation of the axis by a
random angle, irrational in general) is abstracted as the stream `dirs` of
unit directions.  The emitter tops the buffer up to the cumulative target
`min (k * rate) cap`, each new particle at the origin with velocity
`speed * direction`. -/
def pointEmit (cfg : PointEmitterConfig) (dirs : ℕ → Point) (k : ℕ)
    (particles : List (Point × Point)) : List (Point × Point) :=
  particles ++ (List.range (min (k * cfg.rate) cfg.cap - particles.length)).map
    (fun m => (cfg.origin,
      (cfg.speed * (dirs (particles.length + m)).1,
       cfg.speed * (dirs (particles.length + m)).2)))

/-- The particle buffer after advancing through unit-length frames
`1, 2, …, k`, calling `emit` once per frame, starting empty. -/
def pointRun (cfg : PointEmitterConfig) (dirs : ℕ → Point) : ℕ → List (Point × Point)
  | 0 => []
  | k + 1 => pointEmit cfg dirs (k + 1) (pointRun cfg dirs k)

/-! ### Concrete instances for witnesses -/

/-- A concrete volume-emitter configuration used by witnesses: spacing 1,
no jitter, one-shot, no overlapping, cap 10, one candidate point at the
origin. -/
def testCfg : EmitterConfig :=
  ⟨1, (0, 0), 10, 0, true, false, fun _ => [(0, 0)]⟩

/-- A concrete signed-distance function whose interior is everything. -/
def testSdf : Point → ℚ := fun _ => -1

/-- The empty particle system. -/
def testPS : ParticleSystemData2 := ⟨[], []⟩

/-- A concrete direction stream: constantly the unit vector `(0, 1)`. -/
def testDirs : ℕ → Point := fun _ => (0, 1)

/-- The point-emitter configuration of the unit test: origin `(1, 2)`,
axis `(0, 1)`, speed 3, spread-angle cosine `9/10`, rate 4, cap 18. -/
def testPointCfg : PointEmitterConfig := ⟨(1, 2), (0, 1), 3, 9 / 10, 4, 18⟩

end FluidEngine

namespace FluidEngine

/-- C1 counterexample: at the default arguments (`boundarySdf ≡ kMaxD`,
`fluidSdf ≡ -kMaxD`) the classification rule exactly as the claim words it
("fluid if fluidSdf > 0") marks every sample air, while the solver's marker
(consistent with the defaults' documented meaning "fully occupied with
fluid") is fluid — so the claim's rule and its fully-fluid-default clause
contradict each other at this concrete input. -/
theorem C1_counterexample :
    classifySpecWords kMaxD (-kMaxD) = Marker.air ∧
    markerAt defaultBoundarySdf defaultFluidSdf (fun i j => ((i : ℚ), (j : ℚ))) 0 0
      = Marker.fluid ∧
    Marker.air ≠ Marker.fluid := by
  refine ⟨?_, ?_, by decide⟩
  · unfold classifySpecWords kMaxD
    norm_num
  · unfold markerAt classify defaultBoundarySdf defaultFluidSdf kMaxD
    norm_num

/-- C1 (amended): for every field layout `pos` and every sample point, the
solver's marker is solid iff `boundarySdf < 0` there, else fluid iff
`fluidSdf < 0` there, else air; and with the default arguments the marker is
fluid (never solid, never air) at every sample point. -/
theorem C1_marker_classification (b f : Point → ℚ) (pos : ℕ → ℕ → Point) (i j : ℕ) :
    (markerAt b f pos i j = Marker.solid ↔ b (pos i j) < 0) ∧
    (markerAt b f pos i j = Marker.fluid ↔ ¬ b (pos i j) < 0 ∧ f (pos i j) < 0) ∧
    (markerAt b f pos i j = Marker.air ↔ ¬ b (pos i j) < 0 ∧ ¬ f (pos i j) < 0) ∧
    markerAt defaultBoundarySdf defaultFluidSdf pos i j = Marker.fluid := by
  have hk : ¬ (kMaxD < 0) ∧ -kMaxD < 0 := by unfold kMaxD; norm_num
  unfold markerAt classify defaultBoundarySdf defaultFluidSdf
  rcases hk with ⟨hk1, hk2⟩
  refine ⟨?_, ?_, ?_, ?_⟩ <;> split_ifs <;> simp_all

/-- C2: after `solve`, at every sample marked fluid the destination equals
`source + dt * mu * laplacian`, where the Laplacian is central differencing
over the 4-neighborhood with a solid (or out-of-range) neighbor's value
replaced by the center value; at every sample marked solid or air the
destination equals the source exactly. -/
theorem C2_forward_euler_step (g : ScalarGrid2) (mu dt : ℚ) (b f : Point → ℚ)
    (i j : ℕ) :
    (solve g mu dt b f).data i j =
      if markerAt b f g.pos i j = Marker.fluid then
        g.data i j + dt * mu *
          (((if 0 < i ∧ markerAt b f g.pos (i - 1) j ≠ Marker.solid
                then g.data (i - 1) j else g.data i j)
            + (if i + 1 < g.sizeX ∧ markerAt b f g.pos (i + 1) j ≠ Marker.solid
                then g.data (i + 1) j else g.data i j)
            + (if 0 < j ∧ markerAt b f g.pos i (j - 1) ≠ Marker.solid
                then g.data i (j - 1) else g.data i j)
            + (if j + 1 < g.sizeY ∧ markerAt b f g.pos i (j + 1) ≠ Marker.solid
                then g.data i (j + 1) else g.data i j)
            - 4 * g.data i j) / g.gridSpacing ^ 2)
      else
        g.data i j := by
  by_cases h : markerAt b f g.pos i j = Marker.fluid
  · simp only [solve, h, if_pos, laplacian]
    rw [div_add_div_same]
    ring
  · simp only [solve, h, if_neg, ite_false]

/-- C8: the solver performs no stability check — even when the 2-D bound
`diffusionCoefficient < gridSpacing / (8 * dt)` is violated, `solve`
completes, preserves the grid topology and writes the forward-Euler result
(possibly diverging) to every sample. -/
theorem C8_no_stability_check (g : ScalarGrid2) (mu dt : ℚ) (b f : Point → ℚ)
    (hviol : g.gridSpacing / (8 * dt) ≤ mu) :
    (solve g mu dt b f).sizeX = g.sizeX ∧
    (solve g mu dt b f).sizeY = g.sizeY ∧
    (solve g mu dt b f).gridSpacing = g.gridSpacing ∧
    ∀ i j, (solve g mu dt b f).data i j =
      if markerAt b f g.pos i j = Marker.fluid then
        g.data i j + mu * dt * laplacian g b f i j
      else
        g.data i j :=
  ⟨rfl, rfl, rfl, fun _ _ => rfl⟩

/-- Witness for C8: the violating coefficient `mu = 1` with `dt = 1` and unit
grid spacing (`1 / 8 ≤ 1`) still yields the forward-Euler result. -/
theorem C8_no_stability_check_witness :
    testGrid.gridSpacing / (8 * 1) ≤ (1 : ℚ) ∧
    ((solve testGrid 1 1 defaultBoundarySdf defaultFluidSdf).sizeX = testGrid.sizeX ∧
     (solve testGrid 1 1 defaultBoundarySdf defaultFluidSdf).sizeY = testGrid.sizeY ∧
     (solve testGrid 1 1 defaultBoundarySdf defaultFluidSdf).gridSpacing
        = testGrid.gridSpacing ∧
     ∀ i j, (solve testGrid 1 1 defaultBoundarySdf defaultFluidSdf).data i j =
        if markerAt defaultBoundarySdf defaultFluidSdf testGrid.pos i j = Marker.fluid then
          testGrid.data i j
            + 1 * 1 * laplacian testGrid defaultBoundarySdf defaultFluidSdf i j
        else
          testGrid.data i j) :=
  ⟨by norm_num [testGrid],
   C8_no_stability_check testGrid 1 1 defaultBoundarySdf defaultFluidSdf
     (by norm_num [testGrid])⟩

/-! ### Fold invariants for the emitter loop -/

/-- A `foldl` preserves any property preserved by each step on a member of
the list. -/
theorem foldl_inv {α β : Type} (step : β → α → β) (P : β → Prop) (l : List α) :
    ∀ a0 : β, (∀ acc x, x ∈ l → P acc → P (step acc x)) → P a0 →
      P (l.foldl step a0) := by
  induction l with
  | nil => intro a0 _ h0; exact h0
  | cons x xs ih =>
      intro a0 h h0
      exact ih (step a0 x)
        (fun acc y hy hacc => h acc y (List.mem_cons_of_mem _ hy) hacc)
        (h a0 x (List.mem_cons_self _ _) h0)

/-- Counting behavior of the candidate loop: the counter never decreases,
never passes the cap it started under, rises by exactly the number of
accepted positions, and accepts nothing when it starts at or above the
cap. -/
theorem fold_count_spec (cfg : EmitterConfig) (sdf : Point → ℚ)
    (old : List Point) (cands : List Point) (a0 : EmitAcc) :
    a0.count ≤ (cands.foldl (stepCandidate cfg sdf old) a0).count ∧
    ((cands.foldl (stepCandidate cfg sdf old) a0).count
        ≤ cfg.maxNumberOfParticles ∨
      (cands.foldl (stepCandidate cfg sdf old) a0).count = a0.count) ∧
    (cands.foldl (stepCandidate cfg sdf old) a0).count
        + a0.newPositions.length
      = a0.count + (cands.foldl (stepCandidate cfg sdf old) a0).newPositions.length ∧
    (cfg.maxNumberOfParticles ≤ a0.count →
      (cands.foldl (stepCandidate cfg sdf old) a0).count = a0.count ∧
      (cands.foldl (stepCandidate cfg sdf old) a0).newPositions = a0.newPositions) := by
  refine foldl_inv (stepCandidate cfg sdf old)
    (fun acc => a0.count ≤ acc.count ∧
      (acc.count ≤ cfg.maxNumberOfParticles ∨ acc.count = a0.count) ∧
      acc.count + a0.newPositions.length = a0.count + acc.newPositions.length ∧
      (cfg.maxNumberOfParticles ≤ a0.count →
        acc.count = a0.count ∧ acc.newPositions = a0.newPositions))
    cands a0 ?_ ?_
  · intro acc x _ hacc
    obtain ⟨h1, h2, h3, h4⟩ := hacc
    unfold stepCandidate
    split_ifs with hsdf hover hcap
    · exact ⟨h1, h2, h3, h4⟩
    · exact ⟨h1, h2, h3, h4⟩
    · dsimp only
      refine ⟨by omega, by omega, ?_, ?_⟩
      · rw [List.length_append]
        dsimp only [List.length_cons, List.length_nil]
        omega
      · intro hmax
        exact absurd hcap (by omega)
    · exact ⟨h1, h2, h3, h4⟩
  · exact ⟨le_refl _, Or.inr rfl, rfl, fun _ => ⟨rfl, rfl⟩⟩

/-- When every candidate is rejected by the signed-distance test the loop
leaves the accumulator untouched. -/
theorem fold_all_rejected (cfg : EmitterConfig) (sdf : Point → ℚ)
    (old : List Point) (cands : List Point) (a0 : EmitAcc)
    (h : ∀ c ∈ cands, 0 ≤ sdf c) :
    cands.foldl (stepCandidate cfg sdf old) a0 = a0 := by
  refine foldl_inv (stepCandidate cfg sdf old) (fun acc => acc = a0) cands a0 ?_ rfl
  intro acc x hx hacc
  subst hacc
  unfold stepCandidate
  rw [if_pos (h x hx)]

/-- The seeded generator draws scalars in `[0, 1)`. -/
theorem randFrac_bounds (s : ℕ) : 0 ≤ randFrac s ∧ randFrac s < 1 := by
  unfold randFrac
  constructor
  · positivity
  · rw [div_lt_one (by norm_num)]
    exact_mod_cast Nat.mod_lt s (by norm_num)

/-- The jitter perturbation moves a candidate by at most
`jitter * spacing` along each axis. -/
theorem jitterPoint_bound (cfg : EmitterConfig) (s : ℕ) (p : Point)
    (hj : 0 ≤ cfg.jitter) (hs : 0 ≤ cfg.spacing) :
    |(jitterPoint cfg s p).1.1 - p.1| ≤ cfg.jitter * cfg.spacing ∧
    |(jitterPoint cfg s p).1.2 - p.2| ≤ cfg.jitter * cfg.spacing := by
  have hjs : 0 ≤ cfg.jitter * cfg.spacing := mul_nonneg hj hs
  have key : ∀ t : ℕ,
      |cfg.jitter * cfg.spacing * (randFrac t - 1 / 2)| ≤ cfg.jitter * cfg.spacing := by
    intro t
    obtain ⟨hr0, hr1⟩ := randFrac_bounds t
    have habs : |randFrac t - 1 / 2| ≤ 1 / 2 :=
      abs_le.mpr ⟨by linarith, by linarith⟩
    calc |cfg.jitter * cfg.spacing * (randFrac t - 1 / 2)|
        = |cfg.jitter * cfg.spacing| * |randFrac t - 1 / 2| := abs_mul _ _
      _ = (cfg.jitter * cfg.spacing) * |randFrac t - 1 / 2| := by
            rw [abs_of_nonneg hjs]
      _ ≤ (cfg.jitter * cfg.spacing) * (1 / 2) := by
            exact mul_le_mul_of_nonneg_left habs hjs
      _ ≤ cfg.jitter * cfg.spacing := by linarith
  unfold jitterPoint
  split_ifs with hpos
  · constructor
    · simpa using key s
    · simpa using key (lcg s)
  · simp [hjs]

/-- Every position accepted by the candidate loop either was in the starting
accumulator or stems from a candidate strictly inside the implicit surface,
within `jitter * spacing` of it along each axis. -/
theorem fold_newPos_spec (cfg : EmitterConfig) (sdf : Point → ℚ)
    (old : List Point) (cands : List Point) (a0 : EmitAcc)
    (hj : 0 ≤ cfg.jitter) (hs : 0 ≤ cfg.spacing) :
    ∀ q ∈ (cands.foldl (stepCandidate cfg sdf old) a0).newPositions,
      q ∈ a0.newPositions ∨
      ∃ c ∈ cands, sdf c < 0 ∧
        |q.1 - c.1| ≤ cfg.jitter * cfg.spacing ∧
        |q.2 - c.2| ≤ cfg.jitter * cfg.spacing := by
  refine foldl_inv (stepCandidate cfg sdf old)
    (fun acc => ∀ q ∈ acc.newPositions,
      q ∈ a0.newPositions ∨
      ∃ c ∈ cands, sdf c < 0 ∧
        |q.1 - c.1| ≤ cfg.jitter * cfg.spacing ∧
        |q.2 - c.2| ≤ cfg.jitter * cfg.spacing)
    cands a0 ?_ (fun q hq => Or.inl hq)
  intro acc x hx hacc
  unfold stepCandidate
  split_ifs with hsdf hover hcap
  · exact hacc
  · exact hacc
  · dsimp only
    intro q hq
    rcases List.mem_append.mp hq with hq | hq
    · exact hacc q hq
    · have hqx : q = (jitterPoint cfg acc.rng x).1 := List.mem_singleton.mp hq
      subst hqx
      obtain ⟨hb1, hb2⟩ := jitterPoint_bound cfg acc.rng x hj hs
      exact Or.inr ⟨x, hx, lt_of_not_le hsdf, hb1, hb2⟩
  · exact hacc

/-- The candidate loop preserves pairwise separation of the whole buffer
(old particles and the ones accepted so far) when overlapping is
disallowed. -/
theorem fold_separated (cfg : EmitterConfig) (sdf : Point → ℚ)
    (old : List Point) (cands : List Point) (a0 : EmitAcc)
    (hov : cfg.allowOverlapping = false)
    (hsep : Separated (cfg.spacing ^ 2) (old ++ a0.newPositions)) :
    Separated (cfg.spacing ^ 2)
      (old ++ (cands.foldl (stepCandidate cfg sdf old) a0).newPositions) := by
  refine foldl_inv (stepCandidate cfg sdf old)
    (fun acc => Separated (cfg.spacing ^ 2) (old ++ acc.newPositions))
    cands a0 ?_ hsep
  intro acc x _ hacc
  unfold stepCandidate
  split_ifs with hsdf hover hcap
  · exact hacc
  · exact hacc
  · dsimp only
    rw [← List.append_assoc]
    have hfar : ∀ r ∈ old ++ acc.newPositions,
        cfg.spacing ^ 2 ≤ dist2 r (jitterPoint cfg acc.rng x).1 := by
      intro r hr
      by_contra hlt
      exact hover ⟨hov, r, hr, lt_of_not_le fun hle => hlt hle⟩
    unfold Separated at hacc ⊢
    rw [List.pairwise_append]
    refine ⟨hacc, List.pairwise_singleton _ _, ?_⟩
    intro r hr b hb
    rw [List.mem_singleton] at hb
    subst hb
    exact hfar r hr
  · exact hacc

/-! ### One `emit` call -/

/-- Counting behavior of one `emit` call: monotone counter, counter bounded
by the cap (unless the call was a no-op), appended particles counted
exactly, and a saturated call appends nothing. -/
theorem emit_count_spec (cfg : EmitterConfig) (sdf : Point → ℚ) (st : EmitterState)
    (ps : ParticleSystemData2) :
    st.numberOfEmittedParticles ≤ (emit cfg sdf st ps).1.numberOfEmittedParticles ∧
    ((emit cfg sdf st ps).1.numberOfEmittedParticles ≤ cfg.maxNumberOfParticles ∨
      (emit cfg sdf st ps).1.numberOfEmittedParticles = st.numberOfEmittedParticles) ∧
    (emit cfg sdf st ps).2.positions.length + st.numberOfEmittedParticles
      = ps.positions.length + (emit cfg sdf st ps).1.numberOfEmittedParticles ∧
    (cfg.maxNumberOfParticles ≤ st.numberOfEmittedParticles →
      (emit cfg sdf st ps).2 = ps) := by
  obtain ⟨h1, h2, h3, h4⟩ := fold_count_spec cfg sdf ps.positions
    (cfg.pointsGen cfg.spacing) ⟨st.rngState, st.numberOfEmittedParticles, []⟩
  dsimp only [List.length_nil] at h1 h2 h3 h4
  unfold emit
  split_ifs with hg
  · exact ⟨le_refl _, Or.inr rfl, rfl, fun _ => rfl⟩
  · unfold emitAccOf
    refine ⟨h1, h2, ?_, ?_⟩
    · dsimp only
      rw [List.length_append]
      omega
    · intro hmax
      obtain ⟨_, hnil⟩ := h4 hmax
      dsimp only
      rw [hnil]
      simp

/-- C3: one `emit` call never pushes the emitted counter above the cap,
appends at most `cap - alreadyEmitted` particles (counted exactly by the
counter increase), and a call that cannot emit — saturated cap or no
interior candidate — appends nothing and raises nothing. -/
theorem C3_emission_cap (cfg : EmitterConfig) (sdf : Point → ℚ) (st : EmitterState)
    (ps : ParticleSystemData2) :
    (st.numberOfEmittedParticles ≤ cfg.maxNumberOfParticles →
      (emit cfg sdf st ps).1.numberOfEmittedParticles ≤ cfg.maxNumberOfParticles) ∧
    ((emit cfg sdf st ps).1.numberOfEmittedParticles - st.numberOfEmittedParticles
      ≤ cfg.maxNumberOfParticles - st.numberOfEmittedParticles) ∧
    ((emit cfg sdf st ps).2.positions.length
      = ps.positions.length
        + ((emit cfg sdf st ps).1.numberOfEmittedParticles
            - st.numberOfEmittedParticles)) ∧
    (cfg.maxNumberOfParticles ≤ st.numberOfEmittedParticles →
      (emit cfg sdf st ps).2 = ps) ∧
    ((∀ c ∈ cfg.pointsGen cfg.spacing, 0 ≤ sdf c) → emit cfg sdf st ps = (st, ps)) := by
  obtain ⟨h1, h2, h3, h4⟩ := emit_count_spec cfg sdf st ps
  refine ⟨by omega, by omega, by omega, h4, ?_⟩
  intro hall
  unfold emit
  split_ifs with hg
  · rfl
  · unfold emitAccOf
    rw [fold_all_rejected cfg sdf ps.positions (cfg.pointsGen cfg.spacing) _ hall]
    simp

/-- Witness for C3 at a concrete emitter: one interior candidate, cap 10,
fresh state, empty particle system. -/
theorem C3_emission_cap_witness :
    ((initState 0).numberOfEmittedParticles ≤ testCfg.maxNumberOfParticles →
      (emit testCfg testSdf (initState 0) testPS).1.numberOfEmittedParticles
        ≤ testCfg.maxNumberOfParticles) ∧
    ((emit testCfg testSdf (initState 0) testPS).1.numberOfEmittedParticles
        - (initState 0).numberOfEmittedParticles
      ≤ testCfg.maxNumberOfParticles - (initState 0).numberOfEmittedParticles) ∧
    ((emit testCfg testSdf (initState 0) testPS).2.positions.length
      = testPS.positions.length
        + ((emit testCfg testSdf (initState 0) testPS).1.numberOfEmittedParticles
            - (initState 0).numberOfEmittedParticles)) ∧
    (testCfg.maxNumberOfParticles ≤ (initState 0).numberOfEmittedParticles →
      (emit testCfg testSdf (initState 0) testPS).2 = testPS) ∧
    ((∀ c ∈ testCfg.pointsGen testCfg.spacing, 0 ≤ testSdf c) →
      emit testCfg testSdf (initState 0) testPS = (initState 0, testPS)) :=
  C3_emission_cap testCfg testSdf (initState 0) testPS

/-- C4: on a one-shot emitter whose first `emit` call has emitted particles,
every further `emit` call is a no-op — iterating any number of further calls
changes neither the (state, particle-system) pair nor the particle count. -/
theorem C4_one_shot_idempotent (cfg : EmitterConfig) (sdf : Point → ℚ)
    (st : EmitterState) (ps : ParticleSystemData2)
    (hone : cfg.isOneShot = true)
    (hemit : 0 < (emitCall cfg sdf (st, ps)).1.numberOfEmittedParticles) :
    ∀ n, (emitCall cfg sdf)^[n] (emitCall cfg sdf (st, ps)) = emitCall cfg sdf (st, ps) ∧
      ((emitCall cfg sdf)^[n] (emitCall cfg sdf (st, ps))).2.positions.length
        = (emitCall cfg sdf (st, ps)).2.positions.length := by
  have hfix : emitCall cfg sdf (emitCall cfg sdf (st, ps)) = emitCall cfg sdf (st, ps) := by
    show emit cfg sdf (emitCall cfg sdf (st, ps)).1 (emitCall cfg sdf (st, ps)).2
      = emitCall cfg sdf (st, ps)
    unfold emit
    rw [if_pos ⟨hone, hemit⟩]
  intro n
  exact ⟨Function.iterate_fixed hfix n, by rw [Function.iterate_fixed hfix n]⟩

/-- Witness for C4: the concrete one-shot emitter emits once, and the claim
holds for all further calls. -/
theorem C4_one_shot_idempotent_witness :
    testCfg.isOneShot = true ∧
    0 < (emitCall testCfg testSdf (initState 0, testPS)).1.numberOfEmittedParticles ∧
    ∀ n, (emitCall testCfg testSdf)^[n] (emitCall testCfg testSdf (initState 0, testPS))
        = emitCall testCfg testSdf (initState 0, testPS) ∧
      ((emitCall testCfg testSdf)^[n]
          (emitCall testCfg testSdf (initState 0, testPS))).2.positions.length
        = (emitCall testCfg testSdf (initState 0, testPS)).2.positions.length :=
  ⟨rfl, by decide,
   C4_one_shot_idempotent testCfg testSdf (initState 0) testPS rfl (by decide)⟩

/-- Every position present after one `emit` call either was already in the
buffer or stems from a strictly interior candidate of this call, within the
jitter bound along each axis. -/
theorem emit_new_positions (cfg : EmitterConfig) (sdf : Point → ℚ)
    (st : EmitterState) (ps : ParticleSystemData2)
    (hj : 0 ≤ cfg.jitter) (hs : 0 ≤ cfg.spacing) :
    ∀ q ∈ (emit cfg sdf st ps).2.positions,
      q ∈ ps.positions ∨
      ∃ c ∈ cfg.pointsGen cfg.spacing, sdf c < 0 ∧
        |q.1 - c.1| ≤ cfg.jitter * cfg.spacing ∧
        |q.2 - c.2| ≤ cfg.jitter * cfg.spacing := by
  unfold emit
  split_ifs with hg
  · intro q hq
    exact Or.inl hq
  · intro q hq
    dsimp only at hq
    rcases List.mem_append.mp hq with h | h
    · exact Or.inl h
    · unfold emitAccOf at h
      rcases fold_newPos_spec cfg sdf ps.positions (cfg.pointsGen cfg.spacing)
          ⟨st.rngState, st.numberOfEmittedParticles, []⟩ hj hs q h with h0 | hEx
      · exact absurd h0 (List.not_mem_nil q)
      · exact Or.inr hEx

/-- C5: every position appended by `emit` stems from a candidate point whose
signed distance is strictly negative (strictly interior); a candidate with
signed distance ≥ 0 is never emitted.  The appended position is the
candidate moved by at most `jitter * spacing` along each axis. -/
theorem C5_interior_candidates (cfg : EmitterConfig) (sdf : Point → ℚ)
    (st : EmitterState) (ps : ParticleSystemData2)
    (hj : 0 ≤ cfg.jitter) (hs : 0 ≤ cfg.spacing) :
    ∀ q ∈ (emit cfg sdf st ps).2.positions,
      q ∈ ps.positions ∨
      ∃ c ∈ cfg.pointsGen cfg.spacing, sdf c < 0 ∧
        |q.1 - c.1| ≤ cfg.jitter * cfg.spacing ∧
        |q.2 - c.2| ≤ cfg.jitter * cfg.spacing :=
  emit_new_positions cfg sdf st ps hj hs

/-- Witness for C5 at the concrete emitter (jitter 0, spacing 1). -/
theorem C5_interior_candidates_witness :
    (0 : ℚ) ≤ testCfg.jitter ∧ (0 : ℚ) ≤ testCfg.spacing ∧
    ∀ q ∈ (emit testCfg testSdf (initState 0) testPS).2.positions,
      q ∈ testPS.positions ∨
      ∃ c ∈ testCfg.pointsGen testCfg.spacing, testSdf c < 0 ∧
        |q.1 - c.1| ≤ testCfg.jitter * testCfg.spacing ∧
        |q.2 - c.2| ≤ testCfg.jitter * testCfg.spacing :=
  ⟨by decide, by decide,
   C5_interior_candidates testCfg testSdf (initState 0) testPS (by decide) (by decide)⟩

/-- One `emit` call preserves pairwise separation of the particle buffer
when overlapping is disallowed. -/
theorem emit_separated (cfg : EmitterConfig) (sdf : Point → ℚ)
    (st : EmitterState) (ps : ParticleSystemData2)
    (hov : cfg.allowOverlapping = false)
    (hsep : Separated (cfg.spacing ^ 2) ps.positions) :
    Separated (cfg.spacing ^ 2) (emit cfg sdf st ps).2.positions := by
  unfold emit
  split_ifs with hg
  · exact hsep
  · dsimp only
    unfold emitAccOf
    refine fold_separated cfg sdf ps.positions (cfg.pointsGen cfg.spacing)
      ⟨st.rngState, st.numberOfEmittedParticles, []⟩ hov ?_
    rw [List.append_nil]
    exact hsep

/-- C6: with `allowOverlapping = false`, after any number of `emit` calls on
a pairwise-separated buffer every pair of distinct particles is at squared
distance at least `spacing ^ 2` — the overlap test inside one call checks
candidates against pre-existing particles and against the ones accepted
earlier in the same call. -/
theorem C6_pairwise_separation (cfg : EmitterConfig) (sdf : Point → ℚ)
    (st : EmitterState) (ps : ParticleSystemData2)
    (hov : cfg.allowOverlapping = false)
    (hsep : Separated (cfg.spacing ^ 2) ps.positions) :
    ∀ n, Separated (cfg.spacing ^ 2)
      (((emitCall cfg sdf)^[n]) (st, ps)).2.positions := by
  intro n
  induction n with
  | zero => exact hsep
  | succ n ih =>
      rw [Function.iterate_succ_apply']
      exact emit_separated cfg sdf _ _ hov ih

/-- Witness for C6 at the concrete emitter starting from the empty buffer. -/
theorem C6_pairwise_separation_witness :
    testCfg.allowOverlapping = false ∧
    Separated (testCfg.spacing ^ 2) testPS.positions ∧
    ∀ n, Separated (testCfg.spacing ^ 2)
      (((emitCall testCfg testSdf)^[n]) (initState 0, testPS)).2.positions :=
  ⟨rfl, List.Pairwise.nil,
   C6_pairwise_separation testCfg testSdf (initState 0) testPS rfl List.Pairwise.nil⟩

/-- C9: emission is deterministic in the seed — two emitters with the same
configuration and seed, fed the same surface, generator and initial particle
system through the same sequence of calls, produce identical results; and
every position produced over the whole run is a strictly interior candidate
perturbed by at most `jitter * spacing` along each axis. -/
theorem C9_seed_determinism (cfg : EmitterConfig) (sdf : Point → ℚ)
    (ps : ParticleSystemData2) (n : ℕ) (seed1 seed2 : ℕ)
    (hseed : seed1 = seed2) (hj : 0 ≤ cfg.jitter) (hs : 0 ≤ cfg.spacing) :
    (emitCall cfg sdf)^[n] (initState seed1, ps)
      = (emitCall cfg sdf)^[n] (initState seed2, ps) ∧
    ∀ q ∈ ((emitCall cfg sdf)^[n] (initState seed1, ps)).2.positions,
      q ∈ ps.positions ∨
      ∃ c ∈ cfg.pointsGen cfg.spacing, sdf c < 0 ∧
        |q.1 - c.1| ≤ cfg.jitter * cfg.spacing ∧
        |q.2 - c.2| ≤ cfg.jitter * cfg.spacing := by
  subst hseed
  refine ⟨rfl, ?_⟩
  induction n with
  | zero => intro q hq; exact Or.inl hq
  | succ n ih =>
      rw [Function.iterate_succ_apply']
      intro q hq
      rcases emit_new_positions cfg sdf _ _ hj hs q hq with h | h
      · exact ih q h
      · exact Or.inr h

/-- Witness for C9 at the concrete emitter, seed 0, two calls. -/
theorem C9_seed_determinism_witness :
    (0 : ℕ) = 0 ∧ (0 : ℚ) ≤ testCfg.jitter ∧ (0 : ℚ) ≤ testCfg.spacing ∧
    ((emitCall testCfg testSdf)^[2] (initState 0, testPS)
        = (emitCall testCfg testSdf)^[2] (initState 0, testPS) ∧
      ∀ q ∈ ((emitCall testCfg testSdf)^[2] (initState 0, testPS)).2.positions,
        q ∈ testPS.positions ∨
        ∃ c ∈ testCfg.pointsGen testCfg.spacing, testSdf c < 0 ∧
          |q.1 - c.1| ≤ testCfg.jitter * testCfg.spacing ∧
          |q.2 - c.2| ≤ testCfg.jitter * testCfg.spacing) :=
  ⟨rfl, by decide, by decide,
   C9_seed_determinism testCfg testSdf testPS 2 0 0 rfl (by decide) (by decide)⟩

/-! ### 3-D emitter counting -/

/-- 3-D mirror of the counting invariant of the candidate loop. -/
theorem fold_count_spec3 (cfg : EmitterConfig3) (sdf : Point3 → ℚ)
    (old : List Point3) (cands : List Point3) (a0 : EmitAcc3) :
    a0.count ≤ (cands.foldl (stepCandidate3 cfg sdf old) a0).count ∧
    (cands.foldl (stepCandidate3 cfg sdf old) a0).count
        + a0.newPositions.length
      = a0.count + (cands.foldl (stepCandidate3 cfg sdf old) a0).newPositions.length := by
  refine foldl_inv (stepCandidate3 cfg sdf old)
    (fun acc => a0.count ≤ acc.count ∧
      acc.count + a0.newPositions.length = a0.count + acc.newPositions.length)
    cands a0 ?_ ⟨le_refl _, rfl⟩
  intro acc x _ hacc
  obtain ⟨h1, h3⟩ := hacc
  unfold stepCandidate3
  split_ifs with hsdf hover hcap
  · exact ⟨h1, h3⟩
  · exact ⟨h1, h3⟩
  · dsimp only
    refine ⟨by omega, ?_⟩
    rw [List.length_append]
    dsimp only [List.length_cons, List.length_nil]
    omega
  · exact ⟨h1, h3⟩

/-- 3-D mirror of the per-call counting lemma. -/
theorem emit3_count_spec (cfg : EmitterConfig3) (sdf : Point3 → ℚ)
    (st : EmitterState) (ps : ParticleSystemData3) :
    st.numberOfEmittedParticles ≤ (emit3 cfg sdf st ps).1.numberOfEmittedParticles ∧
    (emit3 cfg sdf st ps).2.positions.length + st.numberOfEmittedParticles
      = ps.positions.length + (emit3 cfg sdf st ps).1.numberOfEmittedParticles := by
  obtain ⟨h1, h3⟩ := fold_count_spec3 cfg sdf ps.positions
    (cfg.pointsGen cfg.spacing) ⟨st.rngState, st.numberOfEmittedParticles, []⟩
  dsimp only [List.length_nil] at h1 h3
  unfold emit3
  split_ifs with hg
  · exact ⟨le_refl _, rfl⟩
  · unfold emitAccOf3
    refine ⟨h1, ?_⟩
    dsimp only
    rw [List.length_append]
    omega

/-- C10: in both the 2-D and the 3-D emitter the emitted-particle counter is
exactly 0 on construction; `emit` only ever increases it, by exactly the
number of particles appended in that call; and none of the setters touches
the emission state — so lowering the cap after emission never un-counts
already-emitted particles. -/
theorem C10_counter_lifecycle :
    (∀ (cfg : EmitterConfig) (seed : ℕ),
      (mkVolumeParticleEmitter2 cfg seed).state.numberOfEmittedParticles = 0) ∧
    (∀ (e : VolumeParticleEmitter2) (v : ℚ), (setSpacing e v).state = e.state) ∧
    (∀ (e : VolumeParticleEmitter2) (v : ℚ), (setJitter e v).state = e.state) ∧
    (∀ (e : VolumeParticleEmitter2) (v : Bool), (setIsOneShot e v).state = e.state) ∧
    (∀ (e : VolumeParticleEmitter2) (v : Bool),
      (setAllowOverlapping e v).state = e.state) ∧
    (∀ (e : VolumeParticleEmitter2) (v : ℕ),
      (setMaxNumberOfParticles e v).state = e.state) ∧
    (∀ (e : VolumeParticleEmitter2) (v : Point),
      (setInitialVelocity e v).state = e.state) ∧
    (∀ (e : VolumeParticleEmitter2) (gen : ℚ → List Point),
      (setPointGenerator e gen).state = e.state) ∧
    (∀ (cfg : EmitterConfig) (sdf : Point → ℚ) (st : EmitterState)
        (ps : ParticleSystemData2),
      st.numberOfEmittedParticles ≤ (emit cfg sdf st ps).1.numberOfEmittedParticles ∧
      (emit cfg sdf st ps).2.positions.length + st.numberOfEmittedParticles
        = ps.positions.length + (emit cfg sdf st ps).1.numberOfEmittedParticles) ∧
    (∀ (cfg : EmitterConfig3) (seed : ℕ),
      (mkVolumeParticleEmitter3 cfg seed).state.numberOfEmittedParticles = 0) ∧
    (∀ (e : VolumeParticleEmitter3) (v : ℚ), (setSpacing3 e v).state = e.state) ∧
    (∀ (e : VolumeParticleEmitter3) (v : ℚ), (setJitter3 e v).state = e.state) ∧
    (∀ (e : VolumeParticleEmitter3) (v : Bool), (setIsOneShot3 e v).state = e.state) ∧
    (∀ (e : VolumeParticleEmitter3) (v : Bool),
      (setAllowOverlapping3 e v).state = e.state) ∧
    (∀ (e : VolumeParticleEmitter3) (v : ℕ),
      (setMaxNumberOfParticles3 e v).state = e.state) ∧
    (∀ (e : VolumeParticleEmitter3) (v : Point3),
      (setInitialVelocity3 e v).state = e.state) ∧
    (∀ (e : VolumeParticleEmitter3) (gen : ℚ → List Point3),
      (setPointGenerator3 e gen).state = e.state) ∧
    (∀ (cfg : EmitterConfig3) (sdf : Point3 → ℚ) (st : EmitterState)
        (ps : ParticleSystemData3),
      st.numberOfEmittedParticles ≤ (emit3 cfg sdf st ps).1.numberOfEmittedParticles ∧
      (emit3 cfg sdf st ps).2.positions.length + st.numberOfEmittedParticles
        = ps.positions.length + (emit3 cfg sdf st ps).1.numberOfEmittedParticles) :=
  ⟨fun _ _ => rfl, fun _ _ => rfl, fun _ _ => rfl, fun _ _ => rfl, fun _ _ => rfl,
   fun _ _ => rfl, fun _ _ => rfl, fun _ _ => rfl,
   fun cfg sdf st ps =>
     ⟨(emit_count_spec cfg sdf st ps).1, (emit_count_spec cfg sdf st ps).2.2.1⟩,
   fun _ _ => rfl, fun _ _ => rfl, fun _ _ => rfl, fun _ _ => rfl, fun _ _ => rfl,
   fun _ _ => rfl, fun _ _ => rfl, fun _ _ => rfl,
   fun cfg sdf st ps => emit3_count_spec cfg sdf st ps⟩

/-! ### Point particle emitter -/

/-- The particle count after `k` unit frames is `min (k * rate) cap`. -/
theorem pointRun_length (cfg : PointEmitterConfig) (dirs : ℕ → Point) :
    ∀ k, (pointRun cfg dirs k).length = min (k * cfg.rate) cfg.cap := by
  intro k
  induction k with
  | zero => simp [pointRun]
  | succ k ih =>
      have hmul : k * cfg.rate ≤ (k + 1) * cfg.rate :=
        Nat.mul_le_mul_right cfg.rate (Nat.le_succ k)
      have hmono : min (k * cfg.rate) cfg.cap ≤ min ((k + 1) * cfg.rate) cfg.cap :=
        min_le_min hmul (le_refl _)
      show (pointEmit cfg dirs (k + 1) (pointRun cfg dirs k)).length = _
      rw [pointEmit, List.length_append, List.length_map, List.length_range, ih]
      exact Nat.add_sub_cancel' hmono

/-- Every particle the point emitter produces sits at the origin, has
velocity of squared magnitude `speed ^ 2`, and its velocity points within
the spread cone of the axis. -/
theorem pointRun_mem (cfg : PointEmitterConfig) (dirs : ℕ → Point)
    (hunit : ∀ n, dot (dirs n) (dirs n) = 1)
    (hcone : ∀ n, cfg.cosSpread ≤ dot (dirs n) cfg.axis)
    (hspeed : 0 ≤ cfg.speed) :
    ∀ k, ∀ pv ∈ pointRun cfg dirs k,
      pv.1 = cfg.origin ∧ dot pv.2 pv.2 = cfg.speed ^ 2 ∧
      cfg.speed * cfg.cosSpread ≤ dot pv.2 cfg.axis := by
  intro k
  induction k with
  | zero => intro pv hpv; exact absurd hpv (List.not_mem_nil pv)
  | succ k ih =>
      intro pv hpv
      rcases List.mem_append.mp hpv with h | h
      · exact ih pv h
      · obtain ⟨m, _, hpv⟩ := List.mem_map.mp h
        subst hpv
        refine ⟨rfl, ?_, ?_⟩
        · have h1 := hunit ((pointRun cfg dirs k).length + m)
          unfold dot at h1 ⊢
          dsimp only
          linear_combination cfg.speed ^ 2 * h1
        · have h2 := hcone ((pointRun cfg dirs k).length + m)
          have h3 := mul_le_mul_of_nonneg_left h2 hspeed
          unfold dot at h3 ⊢
          dsimp only
          linarith [h3]

/-- C7: with rate `R` per second and cap `C`, after `k` unit-length frame
advances the emitted count is `min (k * R) C` — for `R = 4`, `C = 18` the
counts over frames 1..5 are 4, 8, 12, 16, 18; every particle sits exactly
at the emission origin, its velocity has squared magnitude exactly
`speed ^ 2`, and its direction lies within the spread cone of the axis. -/
theorem C7_point_emitter (cfg : PointEmitterConfig) (dirs : ℕ → Point)
    (hunit : ∀ n, dot (dirs n) (dirs n) = 1)
    (hcone : ∀ n, cfg.cosSpread ≤ dot (dirs n) cfg.axis)
    (hspeed : 0 ≤ cfg.speed) :
    (∀ k, (pointRun cfg dirs k).length = min (k * cfg.rate) cfg.cap) ∧
    (cfg.rate = 4 → cfg.cap = 18 →
      (pointRun cfg dirs 1).length = 4 ∧ (pointRun cfg dirs 2).length = 8 ∧
      (pointRun cfg dirs 3).length = 12 ∧ (pointRun cfg dirs 4).length = 16 ∧
      (pointRun cfg dirs 5).length = 18) ∧
    (∀ k, ∀ pv ∈ pointRun cfg dirs k,
      pv.1 = cfg.origin ∧ dot pv.2 pv.2 = cfg.speed ^ 2 ∧
      cfg.speed * cfg.cosSpread ≤ dot pv.2 cfg.axis) := by
  refine ⟨pointRun_length cfg dirs, ?_, pointRun_mem cfg dirs hunit hcone hspeed⟩
  intro hr hc
  have hl := pointRun_length cfg dirs
  rw [hl 1, hl 2, hl 3, hl 4, hl 5, hr, hc]
  norm_num

/-- Witness for C7 at the unit test's configuration, with the constant
axis-aligned direction stream. -/
theorem C7_point_emitter_witness :
    (∀ n, dot (testDirs n) (testDirs n) = 1) ∧
    (∀ n, testPointCfg.cosSpread ≤ dot (testDirs n) testPointCfg.axis) ∧
    (0 : ℚ) ≤ testPointCfg.speed ∧
    ((∀ k, (pointRun testPointCfg testDirs k).length
        = min (k * testPointCfg.rate) testPointCfg.cap) ∧
     (testPointCfg.rate = 4 → testPointCfg.cap = 18 →
       (pointRun testPointCfg testDirs 1).length = 4 ∧
       (pointRun testPointCfg testDirs 2).length = 8 ∧
       (pointRun testPointCfg testDirs 3).length = 12 ∧
       (pointRun testPointCfg testDirs 4).length = 16 ∧
       (pointRun testPointCfg testDirs 5).length = 18) ∧
     (∀ k, ∀ pv ∈ pointRun testPointCfg testDirs k,
       pv.1 = testPointCfg.origin ∧
       dot pv.2 pv.2 = testPointCfg.speed ^ 2 ∧
       testPointCfg.speed * testPointCfg.cosSpread ≤ dot pv.2 testPointCfg.axis)) := by
  have h1 : ∀ n, dot (testDirs n) (testDirs n) = 1 := by
    intro n
    norm_num [dot, testDirs]
  have h2 : ∀ n, testPointCfg.cosSpread ≤ dot (testDirs n) testPointCfg.axis := by
    intro n
    norm_num [dot, testDirs, testPointCfg]
  have h3 : (0 : ℚ) ≤ testPointCfg.speed := by norm_num [testPointCfg]
  exact ⟨h1, h2, h3, C7_point_emitter testPointCfg testDirs h1 h2 h3⟩

end FluidEngine
